import Mathlib

/-!
Verification of the configuration resolution engine of `commitizen`
(`src/commitizen/config/__init__.py`): `read_cfg`,
`_find_config_from_defaults` and `_load_config_from_file`, shallowly
embedded as pure Lean functions over an explicit environment that models
the filesystem, the git-root collaborator and the three format adapters.

The format adapters (`TomlConfig`, `JsonConfig`, `YAMLConfig`), the
`BaseConfig` class and the `defaults` module are not part of the reviewed
sources; they are modelled from the spec where indicated.
-/

/-- An error of the subsystem; the reviewed code raises only
`InvalidConfigurationError` with a message. -/
inductive CzError where
  | invalidConfiguration (msg : String)
deriving DecidableEq, Repr

/-- A configuration value, as found in a parsed document section. -/
inductive Value where
  | vstr (s : String)
  | vbool (b : Bool)
  | vint (n : Int)
  | vnone
  | vlist (xs : List Value)
  | vmap (xs : List (String × Value))

/-- A key/value mapping, used both for extracted sections and for the
merged settings table. -/
abbrev SettingsMap := List (String × Value)

/-- A filesystem path, split as the directory part and the final
component (the pathlib `name`), which is all that suffix computation and
candidate construction need. -/
structure FPath where
  dir : String
  name : String
deriving DecidableEq, Repr

/-- How Python renders the paths this code builds: `Path(".") / f` prints
as `f`, and `d / f` prints as `d/f`. Used only in error messages. -/
def FPath.render (p : FPath) : String :=
  if p.dir == "" || p.dir == "." then p.name else p.dir ++ "/" ++ p.name

/-- Index of the last `.` in a character list (pathlib's `name.rfind(".")`),
starting the count at `i`. -/
def rfindDotAux : List Char → Nat → Option Nat
  | [], _ => none
  | c :: cs, i =>
    match rfindDotAux cs (i + 1) with
    | some j => some j
    | none => if c == '.' then some i else none

/-- pathlib's `PurePath.suffix`: with `i` the index of the last dot in the
final component, the suffix is the slice from `i` when `0 < i < len - 1`,
and empty otherwise (no dot, leading dot only, or trailing dot). -/
def pathSuffix (name : String) : String :=
  let cs := name.toList
  match rfindDotAux cs 0 with
  | some i => if 0 < i && i + 1 < cs.length then String.mk (cs.drop i) else ""
  | none => ""

/-- `needle` occurs at the head of `hay`. -/
def charsHasPre : List Char → List Char → Bool
  | [], _ => true
  | _ :: _, [] => false
  | a :: as, b :: bs => a == b && charsHasPre as bs

/-- `needle` occurs contiguously somewhere in `hay` (Python's `in` on
strings). -/
def charsHasSub (needle : List Char) : List Char → Bool
  | [] => charsHasPre needle []
  | b :: bs => charsHasPre needle (b :: bs) || charsHasSub needle bs

/-- Python's `needle in hay` for strings. -/
def strHasSub (needle hay : String) : Bool :=
  charsHasSub needle.toList hay.toList

/-- Modelled from the spec: the canonical schema and defaults table (§6)
lives in `defaults.py`, which is outside the reviewed sources. The key
list follows the spec's §6 enumeration; default values follow the
repository's test expectations where those show them, with neutral
placeholders elsewhere. -/
def DEFAULT_SETTINGS : SettingsMap := [
  ("name", Value.vstr "cz_conventional_commits"),
  ("version", Value.vnone),
  ("version_provider", Value.vstr "commitizen"),
  ("version_scheme", Value.vnone),
  ("tag_format", Value.vstr "$version"),
  ("bump_message", Value.vnone),
  ("allow_abort", Value.vbool false),
  ("allowed_prefixes", Value.vlist [Value.vstr "Merge", Value.vstr "Revert",
    Value.vstr "Pull request", Value.vstr "fixup!", Value.vstr "squash!"]),
  ("version_files", Value.vlist []),
  ("style", Value.vlist []),
  ("changelog_file", Value.vstr "CHANGELOG.md"),
  ("changelog_format", Value.vnone),
  ("changelog_incremental", Value.vbool false),
  ("changelog_start_rev", Value.vnone),
  ("changelog_merge_prerelease", Value.vbool false),
  ("update_changelog_on_bump", Value.vbool false),
  ("use_shortcuts", Value.vbool false),
  ("major_version_zero", Value.vbool false),
  ("pre_bump_hooks", Value.vlist []),
  ("post_bump_hooks", Value.vlist []),
  ("prerelease_offset", Value.vint 0),
  ("encoding", Value.vstr "utf-8"),
  ("always_signoff", Value.vbool false),
  ("template", Value.vnone),
  ("extras", Value.vmap [])]

/-- The canonical schema's key set. -/
def schemaKeys : List String := DEFAULT_SETTINGS.map Prod.fst

/-- First value bound to `k` in an association list. -/
def lookupKey (m : SettingsMap) (k : String) : Option Value :=
  match m with
  | [] => none
  | (k2, v) :: rest => if k2 == k then some v else lookupKey rest k

/-- Modelled from the spec (§4.2): the entries of an extracted section
whose keys fall outside the canonical schema, collected for the `extras`
key. -/
def extrasOf (sec : SettingsMap) : SettingsMap :=
  sec.filter (fun e => !(schemaKeys.contains e.fst))

/-- Modelled from the spec (§4.2): `Merge(partial)` — for every schema
key take the section's value if present, else the default; `extras`
collects the section's out-of-schema entries. -/
def mergeSettings (sec : SettingsMap) : SettingsMap :=
  DEFAULT_SETTINGS.map (fun kv =>
    if kv.fst == "extras" then (kv.fst, Value.vmap (extrasOf sec))
    else
      match lookupKey sec kv.fst with
      | some v => (kv.fst, v)
      | none => kv)

/-- The resolved configuration handle: settings, originating path (absent
for the defaults-only handle) and the empty-section flag (§3, §4.3). -/
structure Config where
  settings : SettingsMap
  path : Option FPath
  isEmptyConfig : Bool

/-- Modelled from the spec (§3, §4.3): the adapter constructors build a
handle whose settings merge the extracted section over the defaults,
whose path is the parsed file, and which is empty iff extraction produced
a literally empty mapping. -/
def mkFileConfig (sec : SettingsMap) (p : FPath) : Config :=
  { settings := mergeSettings sec, path := some p, isEmptyConfig := sec.isEmpty }

/-- Modelled from the spec (§3): `BaseConfig()` — the handle created
empty with defaults: canonical defaults table, no originating path, no
section found. -/
def baseConfig : Config :=
  { settings := DEFAULT_SETTINGS, path := none, isEmptyConfig := true }

/-- The environment of a resolution call: the filesystem (existence and
bytes of files), the git-root collaborator, and the three format
adapters. An adapter function is `Parse` followed by `ExtractSection`
(§4.1), both modelled from the spec since the adapter sources are not
under review: it fails on malformed bytes with an
`InvalidConfigurationError`, and on well-formed bytes returns the tool
section, empty when absent. -/
structure Env where
  gitProjectRoot : Option String
  fileExists : FPath → Bool
  fileData : FPath → String
  tomlParse : String → Except CzError SettingsMap
  jsonParse : String → Except CzError SettingsMap
  yamlParse : String → Except CzError SettingsMap

/-- Modelled from the spec (§6): the ordered default filename list of
`defaults.config_files` — the primary project manifest first, then the
tool-specific files in toml, json, yaml variants, in this literal order. -/
def config_files : List String :=
  ["pyproject.toml", ".cz.toml", "cz.toml", ".cz.json", "cz.json",
   ".cz.yaml", "cz.yaml"]

/-- `_find_config_from_defaults` lines 69-72: the candidate directory
list starts as `[Path(".")]` and the git project root is appended
whenever the collaborator returned one. -/
def cfg_search_paths (gitRoot : Option String) : List String :=
  match gitRoot with
  | some root => ["."] ++ [root]
  | none => ["."]

/-- `_find_config_from_defaults` lines 73-77: the candidate files, the
generator `path / filename for path in cfg_search_paths for filename in
config_files` (directory-major, filename-minor). -/
def cfg_paths (env : Env) : List FPath :=
  (cfg_search_paths env.gitProjectRoot).flatMap
    (fun d => config_files.map (fun f => { dir := d, name := f }))

/-- `_load_config_from_file`: read the file's bytes, then dispatch on a
substring test of the path's suffix, in the order toml, json, yaml; an
unmatched suffix raises `InvalidConfigurationError`. -/
def load_config_from_file (env : Env) (path : FPath) : Except CzError Config :=
  let data := env.fileData path
  if strHasSub "toml" (pathSuffix path.name) then
    Except.map (fun sec => mkFileConfig sec path) (env.tomlParse data)
  else if strHasSub "json" (pathSuffix path.name) then
    Except.map (fun sec => mkFileConfig sec path) (env.jsonParse data)
  else if strHasSub "yaml" (pathSuffix path.name) then
    Except.map (fun sec => mkFileConfig sec path) (env.yamlParse data)
  else
    Except.error (CzError.invalidConfiguration
      "Config file should have a valid extension: toml, yaml or json")

/-- The loop of `_find_config_from_defaults` lines 78-83: skip a missing
candidate, load an existing one (a raised parse error propagates), skip
it when its config is empty, and return the first non-empty one. -/
def searchCandidates (env : Env) : List FPath → Except CzError (Option Config)
  | [] => Except.ok none
  | p :: rest =>
    if env.fileExists p then
      match load_config_from_file env p with
      | Except.error e => Except.error e
      | Except.ok c =>
        if c.isEmptyConfig then searchCandidates env rest
        else Except.ok (some c)
    else searchCandidates env rest

/-- `_find_config_from_defaults`: run the candidate loop over the
directory × filename product; `None` when no candidate qualifies. -/
def find_config_from_defaults (env : Env) : Except CzError (Option Config) :=
  searchCandidates env (cfg_paths env)

/-- `read_cfg`: explicit-path mode checks existence, loads, and rejects
an empty config; default-search mode falls back to the defaults-only
`BaseConfig()` when the search returns `None`. -/
def read_cfg (env : Env) (cfgPath : Option FPath) : Except CzError Config :=
  match cfgPath with
  | some p =>
    if env.fileExists p then
      match load_config_from_file env p with
      | Except.error e => Except.error e
      | Except.ok c =>
        if c.isEmptyConfig then
          Except.error (CzError.invalidConfiguration
            ("File " ++ p.render ++ " doesn't contain any configuration. " ++
             "Fill it or don't use --config-file option."))
        else Except.ok c
    else
      Except.error (CzError.invalidConfiguration
        ("File " ++ p.render ++ " not exists."))
  | none =>
    match find_config_from_defaults env with
    | Except.error e => Except.error e
    | Except.ok (some c) => Except.ok c
    | Except.ok none => Except.ok baseConfig

/-! Effect-level view of the same functions: each filesystem operation
the code performs is recorded in order, so that the frame property
(resolution never mutates the filesystem) is a statement about the
emitted operations rather than a convention of the embedding. -/

/-- A filesystem operation. `probe` is `Path.exists()`, `readBytes` is
`open(path, "rb").read()`; `writeFile` is the mutation the adapters'
`set_key`/`init_empty_config_content` would perform, which the resolution
path never calls. -/
inductive FsOp where
  | probe (p : FPath)
  | readBytes (p : FPath)
  | writeFile (p : FPath) (data : String)
deriving DecidableEq, Repr

/-- Whether an operation only reads the filesystem. -/
def FsOp.isRead : FsOp → Bool
  | FsOp.probe _ => true
  | FsOp.readBytes _ => true
  | FsOp.writeFile _ _ => false

/-- `_load_config_from_file` with its operation trace: the single
`open(path, "rb").read()` happens before the suffix dispatch, on every
branch. The adapters are stateless pure functions (§3) and contribute no
operations. -/
def load_config_from_file_t (env : Env) (path : FPath) :
    Except CzError Config × List FsOp :=
  (load_config_from_file env path, [FsOp.readBytes path])

/-- The candidate loop with its operation trace: every candidate reached
is probed, and an existing one is read; a parse error or a non-empty
config stops the loop. -/
def searchCandidates_t (env : Env) : List FPath → Except CzError (Option Config) × List FsOp
  | [] => (Except.ok none, [])
  | p :: rest =>
    if env.fileExists p then
      match load_config_from_file_t env p with
      | (Except.error e, ops) => (Except.error e, FsOp.probe p :: ops)
      | (Except.ok c, ops) =>
        if c.isEmptyConfig then
          let r := searchCandidates_t env rest
          (r.fst, (FsOp.probe p :: ops) ++ r.snd)
        else (Except.ok (some c), FsOp.probe p :: ops)
    else
      let r := searchCandidates_t env rest
      (r.fst, FsOp.probe p :: r.snd)

/-- `read_cfg` with its operation trace. -/
def read_cfg_t (env : Env) (cfgPath : Option FPath) :
    Except CzError Config × List FsOp :=
  match cfgPath with
  | some p =>
    if env.fileExists p then
      match load_config_from_file_t env p with
      | (Except.error e, ops) => (Except.error e, FsOp.probe p :: ops)
      | (Except.ok c, ops) =>
        if c.isEmptyConfig then
          (Except.error (CzError.invalidConfiguration
            ("File " ++ p.render ++ " doesn't contain any configuration. " ++
             "Fill it or don't use --config-file option.")), FsOp.probe p :: ops)
        else (Except.ok c, FsOp.probe p :: ops)
    else
      (Except.error (CzError.invalidConfiguration
        ("File " ++ p.render ++ " not exists.")), [FsOp.probe p])
  | none =>
    let r := searchCandidates_t env (cfg_paths env)
    (match r.fst with
     | Except.error e => Except.error e
     | Except.ok (some c) => Except.ok c
     | Except.ok none => Except.ok baseConfig, r.snd)

/-! Spec-side notions used to compare the search with the spec's words. -/

/-- Following the spec's words: a candidate is selected iff it exists on
disk and the config loaded from it has a non-empty extracted section.
(Defined for comparison with `_find_config_from_defaults`; a candidate
whose load raises is not "selected" by the spec's sentence.) -/
def isGoodCand (env : Env) (p : FPath) : Bool :=
  env.fileExists p &&
    (match load_config_from_file env p with
     | Except.ok c => !c.isEmptyConfig
     | Except.error _ => false)

/-- The config a candidate loads to, when loading succeeds. -/
def loadedOk (env : Env) (p : FPath) : Option Config :=
  match load_config_from_file env p with
  | Except.ok c => some c
  | Except.error _ => none

/-! Concrete environments used to instantiate the theorems. -/

/-- An environment with an empty filesystem and no git root. -/
def envEmptyFs : Env :=
  { gitProjectRoot := none
    fileExists := fun _ => false
    fileData := fun _ => ""
    tomlParse := fun _ => Except.ok []
    jsonParse := fun _ => Except.ok []
    yamlParse := fun _ => Except.ok [] }

/-- An environment matching the repository test scenario
`test_load_empty_pyproject_toml_and_cz_toml_with_config`: an empty
`pyproject.toml` and a populated `.cz.toml` in the working directory. -/
def envTwoToml : Env :=
  { gitProjectRoot := none
    fileExists := fun p =>
      p == { dir := ".", name := "pyproject.toml" } ||
      p == { dir := ".", name := ".cz.toml" }
    fileData := fun p =>
      if p == { dir := ".", name := ".cz.toml" } then
        "[tool.commitizen]\nname = \"cz_jira\"\n"
      else ""
    tomlParse := fun d =>
      if d == "" then Except.ok []
      else Except.ok [("name", Value.vstr "cz_jira")]
    jsonParse := fun _ => Except.ok []
    yamlParse := fun _ => Except.ok [] }

/-- An environment where `pyproject.toml` holds malformed toml (its parse
raises) while `.cz.toml` holds a populated section. -/
def envBadToml : Env :=
  { gitProjectRoot := none
    fileExists := fun p =>
      p == { dir := ".", name := "pyproject.toml" } ||
      p == { dir := ".", name := ".cz.toml" }
    fileData := fun p =>
      if p == { dir := ".", name := "pyproject.toml" } then "invalid toml content"
      else "[tool.commitizen]\nname = \"cz_jira\"\n"
    tomlParse := fun d =>
      if d == "invalid toml content" then
        Except.error (CzError.invalidConfiguration "pyproject.toml is not a valid toml file")
      else Except.ok [("name", Value.vstr "cz_jira")]
    jsonParse := fun _ => Except.ok []
    yamlParse := fun _ => Except.ok [] }

/-- An environment whose filesystem holds the oddly named files of the
extension-resolution claims, plus an empty `file.toml`. -/
def envOddNames : Env :=
  { gitProjectRoot := none
    fileExists := fun p =>
      p == { dir := ".", name := "config.json.bak" } ||
      p == { dir := ".", name := "jsonfile.txt" } ||
      p == { dir := ".", name := "file.txt" } ||
      p == { dir := ".", name := "file.toml" }
    fileData := fun _ => ""
    tomlParse := fun _ => Except.ok []
    jsonParse := fun _ => Except.ok []
    yamlParse := fun _ => Except.ok [] }

/-! General lemmas about the candidate loop. -/

/-- When every candidate of `L` that exists loads successfully, the loop
returns exactly the load of the first existing candidate with a
non-empty section, `none` when there is no such candidate. -/
theorem searchCandidates_eq_find (env : Env) (L : List FPath)
    (h : ∀ p ∈ L, env.fileExists p = true →
      ∃ c, load_config_from_file env p = Except.ok c) :
    searchCandidates env L =
      Except.ok ((L.find? (isGoodCand env)).bind (loadedOk env)) := by
  induction L with
  | nil => rfl
  | cons p rest ih =>
    have hrest : ∀ q ∈ rest, env.fileExists q = true →
        ∃ c, load_config_from_file env q = Except.ok c :=
      fun q hq => h q (List.mem_cons_of_mem _ hq)
    by_cases hex : env.fileExists p = true
    · obtain ⟨c, hc⟩ := h p (List.mem_cons_self _ _) hex
      by_cases hemp : c.isEmptyConfig = true
      · have hgood : isGoodCand env p = false := by
          simp [isGoodCand, hex, hc, hemp]
        simp [searchCandidates, hex, hc, hemp, hgood, ih hrest]
      · have hgood : isGoodCand env p = true := by
          simp [isGoodCand, hex, hc, hemp]
        simp [searchCandidates, hex, hc, hemp, hgood, loadedOk]
    · have hex2 : env.fileExists p = false := by simpa using hex
      have hgood : isGoodCand env p = false := by simp [isGoodCand, hex2]
      simp [searchCandidates, hex2, hgood, ih hrest]

/-- When every candidate of `L` that exists loads to an empty config, the
loop returns `none`. -/
theorem searchCandidates_all_empty (env : Env) (L : List FPath)
    (h : ∀ p ∈ L, env.fileExists p = true →
      ∃ c, load_config_from_file env p = Except.ok c ∧ c.isEmptyConfig = true) :
    searchCandidates env L = Except.ok none := by
  induction L with
  | nil => rfl
  | cons p rest ih =>
    have hrest := ih (fun q hq => h q (List.mem_cons_of_mem _ hq))
    by_cases hex : env.fileExists p = true
    · obtain ⟨c, hc, hemp⟩ := h p (List.mem_cons_self _ _) hex
      simp [searchCandidates, hex, hc, hemp, hrest]
    · have hex2 : env.fileExists p = false := by simpa using hex
      simp [searchCandidates, hex2, hrest]

/-- A prefix of candidates that are each missing or empty is skipped. -/
theorem searchCandidates_skip_prefix (env : Env) (l1 l2 : List FPath)
    (h : ∀ q ∈ l1, env.fileExists q = false ∨
      ∃ cq, load_config_from_file env q = Except.ok cq ∧ cq.isEmptyConfig = true) :
    searchCandidates env (l1 ++ l2) = searchCandidates env l2 := by
  induction l1 with
  | nil => rfl
  | cons q rest ih =>
    have hrest := ih (fun r hr => h r (List.mem_cons_of_mem _ hr))
    rcases h q (List.mem_cons_self _ _) with hex | ⟨cq, hld, hemp⟩
    · simp [searchCandidates, hex, hrest]
    · by_cases hex : env.fileExists q = true
      · simp [searchCandidates, hex, hld, hemp, hrest]
      · have hex2 : env.fileExists q = false := by simpa using hex
        simp [searchCandidates, hex2, hrest]

/-- The traced candidate loop computes the same result as the plain one. -/
theorem searchCandidates_t_fst (env : Env) (L : List FPath) :
    (searchCandidates_t env L).fst = searchCandidates env L := by
  induction L with
  | nil => rfl
  | cons p rest ih =>
    by_cases hex : env.fileExists p = true
    · cases hld : load_config_from_file env p with
      | error e => simp [searchCandidates_t, searchCandidates, load_config_from_file_t, hex, hld]
      | ok c =>
        by_cases hemp : c.isEmptyConfig = true
        · simp [searchCandidates_t, searchCandidates, load_config_from_file_t, hex, hld, hemp, ih]
        · simp [searchCandidates_t, searchCandidates, load_config_from_file_t, hex, hld, hemp]
    · have hex2 : env.fileExists p = false := by simpa using hex
      simp [searchCandidates_t, searchCandidates, hex2, ih]

/-- Every operation the traced candidate loop emits is a read. -/
theorem searchCandidates_t_reads (env : Env) (L : List FPath) :
    (searchCandidates_t env L).snd.all FsOp.isRead = true := by
  induction L with
  | nil => rfl
  | cons p rest ih =>
    by_cases hex : env.fileExists p = true
    · cases hld : load_config_from_file env p with
      | error e =>
        simp [searchCandidates_t, load_config_from_file_t, hex, hld, FsOp.isRead]
      | ok c =>
        by_cases hemp : c.isEmptyConfig = true
        · simp [searchCandidates_t, load_config_from_file_t, hex, hld, hemp, FsOp.isRead, ih]
        · simp [searchCandidates_t, load_config_from_file_t, hex, hld, hemp, FsOp.isRead]
    · have hex2 : env.fileExists p = false := by simpa using hex
      simp [searchCandidates_t, hex2, FsOp.isRead, ih]

/-! The claims. -/

/-- C1: In default-search mode, the resolver iterates the Cartesian
product of candidate directories and default filenames in
directory-major, filename-minor order; every candidate that does not
exist on disk, or that exists but parses to an empty section, is skipped
non-fatally, and the first candidate whose extracted section is non-empty
is the one returned. (Stated under the hypothesis that no existing
candidate is malformed, the case the claim leaves to C9.) -/
theorem c1_default_search_first_nonempty (env : Env)
    (h : ∀ p ∈ cfg_paths env, env.fileExists p = true →
      ∃ c, load_config_from_file env p = Except.ok c) :
    find_config_from_defaults env =
      Except.ok
        ((((cfg_search_paths env.gitProjectRoot).flatMap
              (fun d => config_files.map (fun f => { dir := d, name := f }))).find?
            (isGoodCand env)).bind (loadedOk env)) :=
  searchCandidates_eq_find env (cfg_paths env) h

/-- C1 witness: on the two-file environment the hypothesis holds and the
search selects the populated `./.cz.toml`, skipping the existing but
empty `./pyproject.toml`. -/
theorem c1_default_search_first_nonempty_witness :
    find_config_from_defaults envTwoToml =
      Except.ok (some (mkFileConfig [("name", Value.vstr "cz_jira")]
        { dir := ".", name := ".cz.toml" })) := by
  have h := c1_default_search_first_nonempty envTwoToml ?hp
  case hp =>
    intro p hp hex
    fin_cases hp <;> exact ⟨_, rfl⟩
  exact h.trans (by rfl)

/-- C2 counterexample: the claim says the git project root is not added
to the candidate directory list when it equals the working directory, so
with the root equal to `"."` it predicts the list `["."]`; the code
appends the root unconditionally and produces `[".", "."]`. -/
theorem c2_root_equal_cwd_counterexample :
    cfg_search_paths (some ".") = [".", "."] ∧
    cfg_search_paths (some ".") ≠ ["."] := by
  exact ⟨rfl, by decide⟩

/-- C2 (amended): the ordered candidate directory list is the current
working directory first, followed by the git project root whenever one
exists — with no check that it differs from the working directory. -/
theorem c2_search_dirs_cwd_then_any_root (gitRoot : Option String) :
    cfg_search_paths gitRoot = "." :: gitRoot.toList := by
  cases gitRoot <;> rfl

/-- C3: the per-file loader selects its adapter by a substring test of
`"toml"`, `"json"`, `"yaml"` against the path's suffix, tried in that
order; when the suffix contains none of the three, it raises
`InvalidConfigurationError` naming the valid extensions, for every
environment — hence regardless of the file's contents. -/
theorem c3_adapter_dispatch_by_suffix_substring (env : Env) (p : FPath) :
    (strHasSub "toml" (pathSuffix p.name) = true →
      load_config_from_file env p =
        Except.map (fun sec => mkFileConfig sec p) (env.tomlParse (env.fileData p))) ∧
    (strHasSub "toml" (pathSuffix p.name) = false →
      strHasSub "json" (pathSuffix p.name) = true →
      load_config_from_file env p =
        Except.map (fun sec => mkFileConfig sec p) (env.jsonParse (env.fileData p))) ∧
    (strHasSub "toml" (pathSuffix p.name) = false →
      strHasSub "json" (pathSuffix p.name) = false →
      strHasSub "yaml" (pathSuffix p.name) = true →
      load_config_from_file env p =
        Except.map (fun sec => mkFileConfig sec p) (env.yamlParse (env.fileData p))) ∧
    (strHasSub "toml" (pathSuffix p.name) = false →
      strHasSub "json" (pathSuffix p.name) = false →
      strHasSub "yaml" (pathSuffix p.name) = false →
      load_config_from_file env p =
        Except.error (CzError.invalidConfiguration
          "Config file should have a valid extension: toml, yaml or json")) := by
  refine ⟨?_, ?_, ?_, ?_⟩ <;> intros <;> simp [load_config_from_file, *]

/-- C3 witness: each of the four dispatch branches, exercised on concrete
names; `a.toml2` shows the match is by substring, not exact suffix. -/
theorem c3_adapter_dispatch_by_suffix_substring_witness :
    load_config_from_file envOddNames { dir := ".", name := "a.toml2" } =
      Except.map (fun sec => mkFileConfig sec { dir := ".", name := "a.toml2" })
        (envOddNames.tomlParse (envOddNames.fileData { dir := ".", name := "a.toml2" })) ∧
    load_config_from_file envOddNames { dir := ".", name := "b.json" } =
      Except.map (fun sec => mkFileConfig sec { dir := ".", name := "b.json" })
        (envOddNames.jsonParse (envOddNames.fileData { dir := ".", name := "b.json" })) ∧
    load_config_from_file envOddNames { dir := ".", name := "c.yaml" } =
      Except.map (fun sec => mkFileConfig sec { dir := ".", name := "c.yaml" })
        (envOddNames.yamlParse (envOddNames.fileData { dir := ".", name := "c.yaml" })) ∧
    load_config_from_file envOddNames { dir := ".", name := "file.txt" } =
      Except.error (CzError.invalidConfiguration
        "Config file should have a valid extension: toml, yaml or json") :=
  ⟨(c3_adapter_dispatch_by_suffix_substring envOddNames _).1 (by decide),
   (c3_adapter_dispatch_by_suffix_substring envOddNames _).2.1 (by decide) (by decide),
   (c3_adapter_dispatch_by_suffix_substring envOddNames _).2.2.1
     (by decide) (by decide) (by decide),
   (c3_adapter_dispatch_by_suffix_substring envOddNames _).2.2.2
     (by decide) (by decide) (by decide)⟩

/-- C4 counterexample: the claim says a file named `config.json.bak`
matches the `"json"` substring and gets the JSON adapter; in fact its
pathlib suffix is `".bak"`, which contains none of the substrings, so the
loader raises the invalid-extension error even though the file exists. -/
theorem c4_json_bak_counterexample :
    envOddNames.fileExists { dir := ".", name := "config.json.bak" } = true ∧
    pathSuffix "config.json.bak" = ".bak" ∧
    load_config_from_file envOddNames { dir := ".", name := "config.json.bak" } =
      Except.error (CzError.invalidConfiguration
        "Config file should have a valid extension: toml, yaml or json") :=
  ⟨rfl, rfl, rfl⟩

/-- C4 (amended): a file literally named `config.json.bak` does NOT match
under the loader's extension resolution (its suffix `".bak"` contains no
recognized substring, so the loader raises the invalid-extension error),
and a file named `jsonfile.txt` does not match either — in every
environment, whatever the files hold. -/
theorem c4_odd_names_never_match (env : Env) (d : String) :
    load_config_from_file env { dir := d, name := "config.json.bak" } =
      Except.error (CzError.invalidConfiguration
        "Config file should have a valid extension: toml, yaml or json") ∧
    load_config_from_file env { dir := d, name := "jsonfile.txt" } =
      Except.error (CzError.invalidConfiguration
        "Config file should have a valid extension: toml, yaml or json") :=
  ⟨rfl, rfl⟩

/-- C5: in explicit-path mode, a path that does not exist makes
resolution fail with `InvalidConfigurationError` whose message names the
path, independently of everything else in the environment — so no parse
is attempted. -/
theorem c5_explicit_missing_path_error (env : Env) (p : FPath)
    (h : env.fileExists p = false) :
    read_cfg env (some p) =
      Except.error (CzError.invalidConfiguration
        ("File " ++ p.render ++ " not exists.")) := by
  simp [read_cfg, h]

/-- C5 witness: matches the repository test `test_custom_file_not_exist`. -/
theorem c5_explicit_missing_path_error_witness :
    read_cfg envEmptyFs (some { dir := "", name := "file.yaml" }) =
      Except.error (CzError.invalidConfiguration "File file.yaml not exists.") :=
  c5_explicit_missing_path_error envEmptyFs { dir := "", name := "file.yaml" } rfl

/-- C6: in explicit-path mode, an existing path whose load yields an
empty configuration makes resolution fail with
`InvalidConfigurationError` naming the file and stating the corrective
action "Fill it or don't use --config-file option". -/
theorem c6_explicit_empty_config_error (env : Env) (p : FPath) (c : Config)
    (hex : env.fileExists p = true)
    (hload : load_config_from_file env p = Except.ok c)
    (hemp : c.isEmptyConfig = true) :
    read_cfg env (some p) =
      Except.error (CzError.invalidConfiguration
        ("File " ++ p.render ++ " doesn't contain any configuration. " ++
         "Fill it or don't use --config-file option.")) := by
  simp [read_cfg, hex, hload, hemp]

/-- C6 witness: matches the repository test
`test_custom_file_is_empty_config` on an empty `file.toml`. -/
theorem c6_explicit_empty_config_error_witness :
    read_cfg envOddNames (some { dir := ".", name := "file.toml" }) =
      Except.error (CzError.invalidConfiguration
        ("File file.toml doesn't contain any configuration. " ++
         "Fill it or don't use --config-file option.")) :=
  c6_explicit_empty_config_error envOddNames { dir := ".", name := "file.toml" }
    (mkFileConfig [] { dir := ".", name := "file.toml" }) rfl rfl rfl

/-- C7: in default-search mode, when every candidate is missing or loads
to an empty section, resolution succeeds with the handle populated purely
with the canonical defaults and with no originating path. -/
theorem c7_defaults_when_nothing_found (env : Env)
    (h : ∀ p ∈ cfg_paths env, env.fileExists p = true →
      ∃ c, load_config_from_file env p = Except.ok c ∧ c.isEmptyConfig = true) :
    read_cfg env none = Except.ok baseConfig ∧
    baseConfig.settings = DEFAULT_SETTINGS ∧ baseConfig.path = none := by
  refine ⟨?_, rfl, rfl⟩
  have hs := searchCandidates_all_empty env (cfg_paths env) h
  simp [read_cfg, find_config_from_defaults, hs]

/-- C7 witness: the empty filesystem, matching the repository test
`test_conf_returns_default_when_no_files`. -/
theorem c7_defaults_when_nothing_found_witness :
    read_cfg envEmptyFs none = Except.ok baseConfig ∧
    baseConfig.settings = DEFAULT_SETTINGS ∧ baseConfig.path = none :=
  c7_defaults_when_nothing_found envEmptyFs
    (fun p _ hex => absurd hex (by simp [envEmptyFs]))

/-- C8: in default-search mode, when every candidate before `p` is
missing or empty and `p` loads to a non-empty configuration, resolution
returns `p`'s configuration — not the all-defaults handle. -/
theorem c8_later_candidate_wins (env : Env) (l1 l2 : List FPath) (p : FPath) (c : Config)
    (hsplit : cfg_paths env = l1 ++ p :: l2)
    (hskip : ∀ q ∈ l1, env.fileExists q = false ∨
      ∃ cq, load_config_from_file env q = Except.ok cq ∧ cq.isEmptyConfig = true)
    (hex : env.fileExists p = true)
    (hload : load_config_from_file env p = Except.ok c)
    (hne : c.isEmptyConfig = false) :
    read_cfg env none = Except.ok c := by
  have h1 : searchCandidates env (cfg_paths env) = Except.ok (some c) := by
    rw [hsplit, searchCandidates_skip_prefix env l1 _ hskip]
    simp [searchCandidates, hex, hload, hne]
  simp [read_cfg, find_config_from_defaults, h1]

/-- C8 witness: an existing but empty `./pyproject.toml` followed by a
populated `./.cz.toml` resolves to the latter's settings, matching the
repository test `test_load_empty_pyproject_toml_and_cz_toml_with_config`. -/
theorem c8_later_candidate_wins_witness :
    read_cfg envTwoToml none =
      Except.ok (mkFileConfig [("name", Value.vstr "cz_jira")]
        { dir := ".", name := ".cz.toml" }) := by
  refine c8_later_candidate_wins envTwoToml
    [{ dir := ".", name := "pyproject.toml" }]
    [{ dir := ".", name := "cz.toml" }, { dir := ".", name := ".cz.json" },
     { dir := ".", name := "cz.json" }, { dir := ".", name := ".cz.yaml" },
     { dir := ".", name := "cz.yaml" }]
    { dir := ".", name := ".cz.toml" }
    (mkFileConfig [("name", Value.vstr "cz_jira")] { dir := ".", name := ".cz.toml" })
    rfl ?_ rfl rfl rfl
  intro q hq
  rw [List.mem_singleton] at hq
  subst hq
  exact Or.inr ⟨mkFileConfig [] { dir := ".", name := "pyproject.toml" }, rfl, rfl⟩

/-- C9: in default-search mode, an existing candidate whose load raises
is not skipped: after any prefix of missing-or-empty candidates, the
adapter's error propagates out of the whole resolution, whatever
candidates follow. -/
theorem c9_parse_error_propagates (env : Env) (l1 l2 : List FPath) (p : FPath) (e : CzError)
    (hsplit : cfg_paths env = l1 ++ p :: l2)
    (hskip : ∀ q ∈ l1, env.fileExists q = false ∨
      ∃ cq, load_config_from_file env q = Except.ok cq ∧ cq.isEmptyConfig = true)
    (hex : env.fileExists p = true)
    (hload : load_config_from_file env p = Except.error e) :
    read_cfg env none = Except.error e := by
  have h1 : searchCandidates env (cfg_paths env) = Except.error e := by
    rw [hsplit, searchCandidates_skip_prefix env l1 _ hskip]
    simp [searchCandidates, hex, hload]
  simp [read_cfg, find_config_from_defaults, h1]

/-- C9 witness: a malformed `./pyproject.toml` makes the whole search
fail with the adapter's error, even though the later candidate
`./.cz.toml` holds a populated section. -/
theorem c9_parse_error_propagates_witness :
    read_cfg envBadToml none =
      Except.error (CzError.invalidConfiguration
        "pyproject.toml is not a valid toml file") := by
  refine c9_parse_error_propagates envBadToml []
    [{ dir := ".", name := ".cz.toml" }, { dir := ".", name := "cz.toml" },
     { dir := ".", name := ".cz.json" }, { dir := ".", name := "cz.json" },
     { dir := ".", name := ".cz.yaml" }, { dir := ".", name := "cz.yaml" }]
    { dir := ".", name := "pyproject.toml" }
    (CzError.invalidConfiguration "pyproject.toml is not a valid toml file")
    rfl ?_ rfl rfl
  intro q hq
  exact absurd hq (List.not_mem_nil q)

/-- C10: resolution is read-only — every filesystem operation
`read_cfg` performs, in either mode and on every environment, is a probe
or a byte read, never a write; and the traced function computes the same
result as the plain one. -/
theorem c10_resolution_only_reads (env : Env) (cfgPath : Option FPath) :
    (read_cfg_t env cfgPath).snd.all FsOp.isRead = true ∧
    (read_cfg_t env cfgPath).fst = read_cfg env cfgPath := by
  cases cfgPath with
  | none =>
    constructor
    · have h := searchCandidates_t_reads env (cfg_paths env)
      simpa [read_cfg_t] using h
    · have h := searchCandidates_t_fst env (cfg_paths env)
      simp [read_cfg_t, read_cfg, find_config_from_defaults, h]
  | some p =>
    by_cases hex : env.fileExists p = true
    · cases hld : load_config_from_file env p with
      | error e =>
        constructor <;>
          simp [read_cfg_t, read_cfg, load_config_from_file_t, hex, hld, FsOp.isRead]
      | ok c =>
        by_cases hemp : c.isEmptyConfig = true
        · constructor <;>
            simp [read_cfg_t, read_cfg, load_config_from_file_t, hex, hld, hemp, FsOp.isRead]
        · constructor <;>
            simp [read_cfg_t, read_cfg, load_config_from_file_t, hex, hld, hemp, FsOp.isRead]
    · have hex2 : env.fileExists p = false := by simpa using hex
      constructor <;> simp [read_cfg_t, read_cfg, hex2, FsOp.isRead]
